import Mathlib

/-!
Verification of `src/libmamba/src/core/util_os.cpp` (mamba).

The C++ functions are shallowly embedded as pure Lean functions.  OS
facilities (Win32 calls, the registry, subprocess execution, the
environment-variable store, the confirmation prompt) are passed in as
explicit parameters, and the side effects the source performs on them
(registry accesses, log events, subprocess invocations, console-codepage
changes) are returned as explicit traces or state.

The two `std::regex` patterns of the source are embedded as regex syntax
trees and run by a backtracking matcher (`runRE`) implementing the
ECMAScript semantics `std::regex` uses: greedy quantifiers with
backtracking, full-string match for `std::regex_match`, leftmost match
for `std::regex_search`.  Both patterns quantify only single character
classes, so the matcher is structurally recursive.
-/

namespace UtilOs

/-- ECMAScript `\d`. -/
def isDigitC (c : Char) : Bool := decide ('0' ≤ c) && decide (c ≤ '9')

/-- ECMAScript `\w`, i.e. `[A-Za-z0-9_]`. -/
def isWordC (c : Char) : Bool :=
  (decide ('A' ≤ c) && decide (c ≤ 'Z')) || (decide ('a' ≤ c) && decide (c ≤ 'z'))
    || isDigitC c || decide (c = '_')

/-- ECMAScript `.`: any character except a line terminator. -/
def isDotC (c : Char) : Bool :=
  !(decide (c = '\n') || decide (c = '\r') || decide (c = '\u2028') || decide (c = '\u2029'))

/-- C `isspace` in the default locale, as used by `std::stoull` and by the
whitespace set of mamba's `strip`. -/
def isSpaceC (c : Char) : Bool :=
  decide (c = ' ') || decide (c = '\t') || decide (c = '\n') || decide (c = '\x0b')
    || decide (c = '\x0c') || decide (c = '\r')

/-- Modelled from the spec: the generic string helper `split` with a
single-character separator, as the source uses it (`split(win_ver, ".")`,
`split(full_version, ".")`).  Splits into the (possibly empty) pieces
between separator occurrences; the empty string yields one empty piece. -/
def splitOnChar (sep : Char) (s : List Char) : List (List Char) :=
  s.foldr
    (fun c acc =>
      if c = sep then [] :: acc
      else
        match acc with
        | [] => [[c]]
        | a :: as => (c :: a) :: as)
    [[]]

/-- Modelled from the spec: the generic string helper `strip`, trimming
whitespace from both ends. -/
def strip (s : List Char) : List Char :=
  ((s.dropWhile isSpaceC).reverse.dropWhile isSpaceC).reverse

/-- Value of a list of decimal digits. -/
def digitsToNat (ds : List Char) : Nat :=
  ds.foldl (fun n c => n * 10 + (c.toNat - 48)) 0

def ULLONG_MAX : Nat := 2 ^ 64 - 1

/-- Model of `std::stoull` with base 10: skip leading whitespace, allow one sign
character, then require at least one decimal digit and convert the
maximal digit run.  `none` models a thrown exception: `invalid_argument`
when there is no digit to convert, `out_of_range` when the value exceeds
`ULLONG_MAX`.  A minus sign negates modulo `2^64`. -/
def stoull (s : List Char) : Option Nat :=
  let s1 := s.dropWhile isSpaceC
  let signAndRest : Bool × List Char :=
    match s1 with
    | '+' :: r => (false, r)
    | '-' :: r => (true, r)
    | r => (false, r)
  let ds := signAndRest.2.takeWhile isDigitC
  if ds.isEmpty then none
  else
    let v := digitsToNat ds
    if ULLONG_MAX < v then none
    else if signAndRest.1 then some ((2 ^ 64 - v % 2 ^ 64) % 2 ^ 64)
    else some v

/-- Modelled from the spec: a "valid unsigned integer" in the plain
sense — a nonempty string of decimal digits. -/
def isValidUInt (s : List Char) : Bool := !s.isEmpty && s.all isDigitC

/-- Test `startsWith hay needle`: `needle` is an initial segment of `hay`. -/
def startsWith : List Char → List Char → Bool
  | _, [] => true
  | [], _ :: _ => false
  | h :: hs, n :: ns => decide (h = n) && startsWith hs ns

/-- Brute-force contiguous substring test. -/
def strContains (needle : List Char) : List Char → Bool
  | [] => startsWith [] needle
  | c :: t => startsWith (c :: t) needle || strContains needle t

/-! ## A backtracking regex matcher (ECMAScript semantics)

`std::regex` defaults to ECMAScript grammar.  The two patterns appearing
in the source quantify only single character classes (`[\w ]+`, `[\w.]+`,
`.*`, `[\d.]+`, `[0-9]+`), which the syntax tree below captures exactly:
`cls` matches one character of a class, `starCls` is a greedy
backtracking `*` over a class, `seq` is concatenation and `group`
a numbered capturing group. -/

inductive REc where
  | cls (p : Char → Bool)
  | starCls (p : Char → Bool)
  | seq (a b : REc)
  | group (i : Nat) (r : REc)

/-- Capture list; the most recent binding of a group number wins. -/
abbrev Caps := List (Nat × List Char)

def getCap (i : Nat) (caps : Caps) : Option (List Char) :=
  (caps.find? (fun p => p.1 == i)).map (fun p => p.2)

/-- Greedy `*` over a one-character class `p`, in continuation-passing
style: consume as many `p`-characters as possible, backtracking one
character at a time when the continuation `k` fails. -/
def tryStar (p : Char → Bool) (k : List Char → Caps → Option Caps) (cap : Caps) :
    List Char → Option Caps
  | [] => k [] cap
  | c :: rest =>
    if p c then
      match tryStar p k cap rest with
      | some r => some r
      | none => k (c :: rest) cap
    else k (c :: rest) cap

/-- Backtracking matcher: `runRE re s cap k` tries to match `re` against a
prefix of `s` starting from captures `cap`, calling the continuation `k`
on the remainder and updated captures; alternatives are explored in the
ECMAScript order (greedy, leftmost-longest first attempt, full
backtracking through the continuation). -/
def runRE : REc → List Char → Caps → (List Char → Caps → Option Caps) → Option Caps
  | .cls p, s, cap, k =>
    match s with
    | [] => none
    | c :: rest => if p c then k rest cap else none
  | .starCls p, s, cap, k => tryStar p k cap s
  | .seq a b, s, cap, k => runRE a s cap (fun s2 cap2 => runRE b s2 cap2 k)
  | .group i r, s, cap, k =>
    runRE r s cap (fun s2 cap2 => k s2 ((i, s.take (s.length - s2.length)) :: cap2))

/-- Model of `std::regex_match`: the regex must consume the entire string. -/
def matchFull (re : REc) (s : List Char) : Option Caps :=
  runRE re s [] (fun rem cap => if rem.isEmpty then some cap else none)

/-- Model of `std::regex_search`: try to match at each position, leftmost first. -/
def searchRE (re : REc) : List Char → Option Caps
  | [] => runRE re [] [] (fun _ cap => some cap)
  | c :: rest =>
    match runRE re (c :: rest) [] (fun _ cap => some cap) with
    | some cap => some cap
    | none => searchRE re rest

/-- Number of capturing groups; `std::smatch::size()` is this plus one. -/
def numGroups : REc → Nat
  | .cls _ => 0
  | .starCls _ => 0
  | .seq a b => numGroups a + numGroups b
  | .group _ r => numGroups r + 1

/-- One-character literal. -/
def litc (c : Char) : REc := .cls (fun d => decide (d = c))

/-- Encoding of `p+` as `p p*`. -/
def plusCls (p : Char → Bool) : REc := .seq (.cls p) (.starCls p)

/-! ## The version-detection functions -/

/-- The ECMAScript pattern `(?:([\w ]+) ([\w.]+) .*\[.* ([\d.]+)\])` of
`windows_version` as a syntax tree (the outer `(?:...)` group is
non-capturing and contributes nothing). -/
def winVerRE : REc :=
  .seq (.group 1 (plusCls (fun c => isWordC c || decide (c = ' '))))
    (.seq (litc ' ')
      (.seq (.group 2 (plusCls (fun c => isWordC c || decide (c = '.'))))
        (.seq (litc ' ')
          (.seq (.starCls isDotC)
            (.seq (litc '[')
              (.seq (.starCls isDotC)
                (.seq (litc ' ')
                  (.seq (.group 3 (plusCls (fun c => isDigitC c || decide (c = '.'))))
                    (litc ']')))))))))

/-- The sub-pattern `[0-9]+\.[0-9]+\.[0-9]+` of the `linux_version`
regex. -/
def linInner : REc :=
  .seq (plusCls isDigitC)
    (.seq (litc '.')
      (.seq (plusCls isDigitC)
        (.seq (litc '.')
          (plusCls isDigitC))))

/-- The ECMAScript pattern `([0-9]+\.[0-9]+\.[0-9]+)-.*` of
`linux_version` as a syntax tree. -/
def linuxVerRE : REc :=
  .seq (.group 1 linInner) (.seq (litc '-') (.starCls isDotC))

/-- The parsing tail of `windows_version`, applied to the stripped `ver`
output `xout`: `std::regex_match` against `winVerRE`; on a match take
group 3 (`full_version`), split it on `.` and join components 0, 1 and 2
with dots (`concat(version_els[0], ".", version_els[1], ".",
version_els[2])`); on no match produce `"0.0.0"`.  The result `none`
models the out-of-bounds `std::vector` access (undefined behaviour) the
source performs when the split has fewer than three components. -/
def windows_version_parse (xout : List Char) : Option (List Char) :=
  match matchFull winVerRE xout with
  | some caps =>
    let fullVersion := (getCap 3 caps).getD []
    let els := splitOnChar '.' fullVersion
    match els.get? 0, els.get? 1, els.get? 2 with
    | some a, some b, some c => some (a ++ '.' :: (b ++ '.' :: c))
    | _, _, _ => none
  | none => some ('0' :: '.' :: '0' :: '.' :: '0' :: [])

/-- The parsing tail of `linux_version`, applied to the raw `uname -r`
output: `std::regex_search` for `linuxVerRE`; on a match, if
`m.size() == 2` (which structurally always holds: one capturing group
plus the whole match) return group 1, otherwise and on no match return
the empty string. -/
def linux_version_parse (out : List Char) : List Char :=
  match searchRE linuxVerRE out with
  | some caps =>
    if numGroups linuxVerRE + 1 = 2 then (getCap 1 caps).getD [] else []
  | none => []

/-- Modelled from the spec: the environment-variable store (`env::get`
returns the variable's value, `""` when it is unset — the source tests
emptiness) together with the compile-time OS-family flags `on_win`,
`on_mac`, `on_linux`. -/
structure OsCtx where
  envGet : String → String
  onWin : Bool
  onMac : Bool
  onLinux : Bool

/-- Embedding of `windows_version`.  `verOut` is the captured stdout of
`COMSPEC /c ver` (`none` models a `reproc` error code).  Returns the
result (`none` modelling the undefined behaviour of
`windows_version_parse`) and whether a subprocess was invoked. -/
def windows_version (ctx : OsCtx) (verOut : Option String) : Option String × Bool :=
  if ctx.envGet "CONDA_OVERRIDE_WIN" ≠ "" then (some (ctx.envGet "CONDA_OVERRIDE_WIN"), false)
  else if !ctx.onWin then (some "", false)
  else
    match verOut with
    | none => (some "", true)
    | some out => ((windows_version_parse (strip out.data)).map (fun l => String.mk l), true)

/-- Embedding of `macos_version`.  `swVersOut` is the captured stdout of
`sw_vers -productVersion` (`none` models a `reproc` error code).  Returns
the result and whether a subprocess was invoked. -/
def macos_version (ctx : OsCtx) (swVersOut : Option String) : String × Bool :=
  if ctx.envGet "CONDA_OVERRIDE_OSX" ≠ "" then (ctx.envGet "CONDA_OVERRIDE_OSX", false)
  else if !ctx.onMac then ("", false)
  else
    match swVersOut with
    | none => ("", true)
    | some out => (String.mk (strip out.data), true)

/-- Embedding of `linux_version`.  `unameOut` is the captured stdout of `uname -r`
(`none` models a `reproc` error code).  Returns the result and whether a
subprocess was invoked. -/
def linux_version (ctx : OsCtx) (unameOut : Option String) : String × Bool :=
  if ctx.envGet "CONDA_OVERRIDE_LINUX" ≠ "" then (ctx.envGet "CONDA_OVERRIDE_LINUX", false)
  else if !ctx.onLinux then ("", false)
  else
    match unameOut with
    | none => ("", true)
    | some out => (String.mk (linux_version_parse out.data), true)

/-! ## `get_self_exe_path` (Windows branch)

`GetModuleFileNameW(NULL, buf, cap)` is modelled by its documented
contract: if the true executable path (length `L`, no NUL characters)
fits, it writes the path plus a terminating NUL and returns `L`; if the
buffer is too small it writes the first `cap - 1` characters plus a NUL
and returns `cap`.  The `std::wstring` buffer starts as
`MAX_PATH` NUL characters; crucially, `buffer.reserve(new_size)` in the
source changes only the capacity, never `buffer.size()`, so every call
passes the same size `MAX_PATH`. -/

def MAX_PATH : Nat := 260

/-- Return value of `GetModuleFileNameW` for a true path of length
`pathLen` and a buffer of size `cap`. -/
def gmfwRet (pathLen cap : Nat) : Nat :=
  if pathLen < cap then pathLen else cap

/-- Logical string left in the buffer (up to the first NUL) after
`GetModuleFileNameW` with buffer size `cap`. -/
def gmfwContents (path : List Char) (cap : Nat) : List Char :=
  if path.length < cap then path else path.take (cap - 1)

/-- The `do { new_size *= 2; buffer.reserve(new_size); size =
GetModuleFileNameW(NULL, buffer.c_str(), buffer.size()); } while
(new_size == size)` loop.  `buffer.size()` stays `MAX_PATH` throughout
(`reserve` does not resize), so every iteration repeats the same call.
`fuel` bounds the number of iterations; `none` means the fuel ran out
(the theorems show one unit always suffices). -/
def gsepLoop (path : List Char) : Nat → Nat → Option (List Char)
  | 0, _ => none
  | fuel + 1, newSize =>
    let ns := newSize * 2
    let size := gmfwRet path.length MAX_PATH
    if ns = size then gsepLoop path fuel ns
    else some (gmfwContents path MAX_PATH)

/-- Embedding of `get_self_exe_path` (Windows branch) for a true executable path
`path`: `none` models the thrown `std::runtime_error` when the OS call
returns `0`; otherwise the returned string is the buffer trimmed at its
first NUL (`buffer.resize(buffer.find(L'\0'))`), which `fs::absolute`
leaves unchanged for the absolute paths the OS reports. -/
def get_self_exe_path (path : List Char) (fuel : Nat) : Option (List Char) :=
  let size := gmfwRet path.length MAX_PATH
  if size = 0 then none
  else if size = MAX_PATH then gsepLoop path fuel size
  else some (gmfwContents path MAX_PATH)

/-- Modelled from the spec: the intended algorithm — "if the OS signals
truncation (returned size equals buffer capacity), double the buffer and
retry, looping until the returned size is strictly less than the buffer
capacity; trim the result to its logical length". -/
def get_self_exe_path_spec_loop (path : List Char) : Nat → Nat → Option (List Char)
  | 0, _ => none
  | fuel + 1, cap =>
    let size := gmfwRet path.length cap
    if size = cap then get_self_exe_path_spec_loop path fuel (cap * 2)
    else some (gmfwContents path cap)

/-- Modelled from the spec: `get_self_exe_path` as specified, starting
from a `MAX_PATH`-sized buffer. -/
def get_self_exe_path_spec (path : List Char) (fuel : Nat) : Option (List Char) :=
  get_self_exe_path_spec_loop path fuel MAX_PATH

/-! ## `run_as_admin` and `enable_long_paths_support` -/

/-- Win32 calls `run_as_admin` performs, in order. -/
inductive WinOp where
  | shellExecuteRunas
  | waitForSingleObjectInfinite
  | getExitCodeProcess
  | closeHandle
  deriving DecidableEq, Repr

/-- Embedding of `run_as_admin(exe, args)`.  `launchOk` is whether
`ShellExecuteEx` (verb `"runas"`) succeeds; when it does, `childExit` is
the exit code the OS reports for the elevated child after the `INFINITE`
wait.  Returns the boolean result, the warning log events, and the Win32
calls made; every modelled call is non-throwing, so the function never
raises. -/
def run_as_admin (launchOk : Bool) (childExit : Nat) : Bool × List String × List WinOp :=
  if !launchOk then
    (false, ["Could not start process as admin."], [.shellExecuteRunas])
  else
    let ops : List WinOp :=
      [.shellExecuteRunas, .waitForSingleObjectInfinite, .getExitCodeProcess, .closeHandle]
    if childExit ≠ 0 then (false, ["Process exited with code != 0."], ops)
    else (true, [], ops)

/-- Registry accesses `enable_long_paths_support` can perform, in order.
`elevatedRegExe` is the registry write performed by the elevated
`reg.exe ADD ... /f` child, not by the function's own process. -/
inductive RegOp where
  | openQuery
  | readValue
  | openWrite
  | writeValue
  | elevatedRegExe
  deriving DecidableEq, Repr

/-- Outcome of `enable_long_paths_support`: the boolean result or a
propagated exception, plus traces. -/
structure ElpOut where
  result : Except String Bool
  regOps : List RegOp
  logs : List String
  deriving Repr

/-- Modelled from the spec: the host registry (the single value
`LongPathsEnabled` under the filesystem control key; `none` = absent) and
the collaborators `enable_long_paths_support` consults — `is_admin()`,
the interactive confirmation `Console::prompt(question, 'n')`, whether
the direct `SetDwordValue` write succeeds and whether the elevated
`reg.exe` child launches and exits with `0`. -/
structure ElpWorld where
  longPathsEnabled : Option Nat
  isAdmin : Bool
  promptAnswer : Bool
  directWriteOk : Bool
  elevatedOk : Bool

/-- Embedding of `enable_long_paths_support(force)` given the host Windows version
string `winVer` (the result of `windows_version()`).  Mirrors the source:
precondition check on the dot-split version via `std::stoull` (whose
exceptions propagate, `Except.error`), guarded registry read, early
success when the value is already `1`, direct write when `force` or
already admin, otherwise prompt-then-elevate, and a final re-read. -/
def enable_long_paths_support (force : Bool) (winVer : String) (w : ElpWorld) : ElpOut :=
  let splitted := splitOnChar '.' winVer.data
  -- `!(splitted.size() >= 3 && std::stoull(splitted[0]) >= 10
  --    && std::stoull(splitted[2]) >= 14352)`, left to right, short-circuit
  if splitted.length < 3 then
    { result := .ok false
      regOps := []
      logs := ["Not setting long path registry key; Windows version must be at least 10 with the fall 2016 \"Anniversary update\" or newer."] }
  else
    match stoull (splitted.getD 0 []) with
    | none => { result := .error "std::invalid_argument or std::out_of_range", regOps := [], logs := [] }
    | some major =>
      if major < 10 then
        { result := .ok false
          regOps := []
          logs := ["Not setting long path registry key; Windows version must be at least 10 with the fall 2016 \"Anniversary update\" or newer."] }
      else
        match stoull (splitted.getD 2 []) with
        | none => { result := .error "std::invalid_argument or std::out_of_range", regOps := [], logs := [] }
        | some build =>
          if build < 14352 then
            { result := .ok false
              regOps := []
              logs := ["Not setting long path registry key; Windows version must be at least 10 with the fall 2016 \"Anniversary update\" or newer."] }
          else
            -- key.Open(HKEY_LOCAL_MACHINE, ..., KEY_QUERY_VALUE)
            match w.longPathsEnabled with
            | none =>
              { result := .ok false
                regOps := [.openQuery, .readValue]
                logs := ["No LongPathsEnabled key detected."] }
            | some prevValue =>
              if prevValue = 1 then
                { result := .ok true
                  regOps := [.openQuery, .readValue]
                  logs := ["Windows long-path support already enabled."] }
              else
                if force || w.isAdmin then
                  if !w.directWriteOk then
                    { result := .error "winreg::RegException"
                      regOps := [.openQuery, .readValue, .openWrite]
                      logs := [] }
                  else
                    -- value now 1; final `key.GetDwordValue` re-read sees 1
                    { result := .ok true
                      regOps := [.openQuery, .readValue, .openWrite, .writeValue, .readValue]
                      logs := ["Windows long-path support enabled."] }
                else
                  if w.promptAnswer then
                    if !w.elevatedOk then
                      { result := .ok false
                        regOps := [.openQuery, .readValue]
                        logs := ["Could not start process as admin or process exited with code != 0."] }
                    else
                      { result := .ok true
                        regOps := [.openQuery, .readValue, .elevatedRegExe, .readValue]
                        logs := ["Windows long-path support enabled."] }
                  else
                    { result := .ok false
                      regOps := [.openQuery, .readValue]
                      logs := ["Did not enable long paths support."] }

/-! ## `to_utf8` -/

/-- OS calls `to_utf8` can perform. -/
inductive ConvOp where
  | sizeQuery
  | convertCall
  deriving DecidableEq, Repr

/-- The `WideCharToMultiByte` facility for one conversion: the result of
the sizing call, the text `std::system_category().message(GetLastError())`
would produce, and the UTF-8 bytes the filling call writes. -/
structure WideConvStub where
  sizeResult : Int
  errorText : String
  converted : String

/-- Embedding of `to_utf8(w, s)` for a wide string of length `s = w.length`.  Result,
error-level log events, and OS conversion calls made.  `Except.error`
models the thrown `std::runtime_error`. -/
def to_utf8 (w : List Nat) (stub : WideConvStub) :
    Except String String × List String × List ConvOp :=
  if w.length = 0 then (.ok "", [], [])
  else if stub.sizeResult ≤ 0 then
    (.error "Failed to convert string to UTF-8",
      ["Failed to convert string to UTF-8 " ++ stub.errorText],
      [.sizeQuery])
  else (.ok stub.converted, [], [.sizeQuery, .convertCall])

/-! ## Console-encoding state (Windows branch) -/

/-- Observable console codepages. -/
structure ConsoleCP where
  inCP : Nat
  outCP : Nat
  deriving DecidableEq, Repr

/-- The process-wide globals of the source: `init_console_cp`,
`init_console_output_cp`, `init_console_initialized`. -/
structure ConsoleGlobals where
  initConsoleCp : Nat
  initConsoleOutputCp : Nat
  initialized : Bool
  deriving DecidableEq, Repr

/-- Whole modelled console state: the globals plus the OS console
(codepages and the stdout buffering mode `setvbuf` switches). -/
structure ConsoleState where
  globals : ConsoleGlobals
  cp : ConsoleCP
  stdoutFullyBuffered : Bool
  deriving DecidableEq, Repr

def CP_UTF8 : Nat := 65001

/-- Process-start state: the globals are zero-initialized with
`initialized = false`; the console holds arbitrary codepages. -/
def consoleStartState (cp : ConsoleCP) (buffered : Bool) : ConsoleState :=
  { globals := { initConsoleCp := 0, initConsoleOutputCp := 0, initialized := false }
    cp := cp
    stdoutFullyBuffered := buffered }

/-- Embedding of `init_console()` (Windows branch): capture the current codepages into
the globals, mark initialized, force both codepages to UTF-8 and switch
stdout to full buffering. -/
def init_console (s : ConsoleState) : ConsoleState :=
  { globals :=
      { initConsoleCp := s.cp.inCP
        initConsoleOutputCp := s.cp.outCP
        initialized := true }
    cp := { inCP := CP_UTF8, outCP := CP_UTF8 }
    stdoutFullyBuffered := true }

/-- Embedding of `reset_console()` (Windows branch): restore the captured codepages,
but only when `init_console_initialized` is set. -/
def reset_console (s : ConsoleState) : ConsoleState :=
  if s.globals.initialized then
    { s with cp := { inCP := s.globals.initConsoleCp, outCP := s.globals.initConsoleOutputCp } }
  else s

/-! ## Characterizing the `linux_version` regex search

The claim about `linux_version` speaks of "the first occurrence of a
substring of the form `<int>.<int>.<int>-`".  We characterize the
backtracking search of `linuxVerRE` by a direct left-to-right scanner
and relate that scanner to an existential occurrence predicate taken
from the spec's words. -/

/-- Does `s` begin with `<digits>.<digits>.<digits>` (each run
nonempty)?  If so, return the matched part and the remainder. -/
def verSplitAt (s : List Char) : Option (List Char × List Char) :=
  if (s.takeWhile isDigitC).isEmpty then none
  else
    match s.dropWhile isDigitC with
    | [] => none
    | c1 :: s2 =>
      if c1 = '.' then
        if (s2.takeWhile isDigitC).isEmpty then none
        else
          match s2.dropWhile isDigitC with
          | [] => none
          | c3 :: s4 =>
            if c3 = '.' then
              if (s4.takeWhile isDigitC).isEmpty then none
              else
                some
                  (s.takeWhile isDigitC ++
                      '.' :: (s2.takeWhile isDigitC ++ '.' :: s4.takeWhile isDigitC),
                    s4.dropWhile isDigitC)
            else none
      else none

/-- Modelled from the spec: `s` begins with a substring of the form
`"<int>.<int>.<int>-"`; if so return the three-part numeric part before
the hyphen. -/
def verPrefixAt (s : List Char) : Option (List Char) :=
  match verSplitAt s with
  | some vrem =>
    match vrem.2 with
    | c :: _ => if c = '-' then some vrem.1 else none
    | [] => none
  | none => none

/-- Modelled from the spec: scan left to right for the first position at
which `"<int>.<int>.<int>-"` begins and return its three-part numeric
part. -/
def scanVer : List Char → Option (List Char)
  | [] => none
  | c :: rest =>
    match verPrefixAt (c :: rest) with
    | some v => some v
    | none => scanVer rest

/-- Modelled from the spec: `s` contains a substring of the form
`"<int>.<int>.<int>-"`. -/
def ContainsVer (s : List Char) : Prop :=
  ∃ pre a b c post,
    s = pre ++ (a ++ '.' :: (b ++ '.' :: (c ++ '-' :: post))) ∧
      a ≠ [] ∧ b ≠ [] ∧ c ≠ [] ∧
      (∀ x ∈ a, isDigitC x = true) ∧ (∀ x ∈ b, isDigitC x = true) ∧
      (∀ x ∈ c, isDigitC x = true)

/-! ### Matcher lemmas -/

theorem tryStar_reject (p : Char → Bool) (k : List Char → Caps → Option Caps) (cap : Caps)
    (hk : ∀ c s2 cap2, p c = true → k (c :: s2) cap2 = none) :
    ∀ s, tryStar p k cap s = k (s.dropWhile p) cap := by
  intro s
  induction s with
  | nil => simp [tryStar, List.dropWhile]
  | cons c rest ih =>
    by_cases hc : p c = true
    · rw [List.dropWhile_cons_of_pos hc]
      simp only [tryStar, hc, if_pos, ih]
      cases hkr : k (List.dropWhile p rest) cap with
      | some r => rfl
      | none => exact hk c rest cap hc
    · have hc2 : p c = false := by revert hc; cases p c <;> simp
      rw [List.dropWhile_cons_of_neg (by simp [hc2])]
      simp [tryStar, hc2]

theorem tryStar_total (p : Char → Bool) (k : List Char → Caps → Option Caps) (cap : Caps)
    (hk : ∀ s2 cap2, (k s2 cap2).isSome = true) :
    ∀ s, tryStar p k cap s = k (s.dropWhile p) cap := by
  intro s
  induction s with
  | nil => simp [tryStar, List.dropWhile]
  | cons c rest ih =>
    by_cases hc : p c = true
    · rw [List.dropWhile_cons_of_pos hc]
      simp only [tryStar, hc, if_pos, ih]
      cases hkr : k (List.dropWhile p rest) cap with
      | some r => rfl
      | none =>
        have := hk (List.dropWhile p rest) cap
        rw [hkr] at this
        simp at this
    · have hc2 : ¬ p c := by simpa using hc
      rw [List.dropWhile_cons_of_neg hc2]
      simp [Bool.not_eq_true] at hc2
      simp [tryStar, hc2]

/-- `p+` with a continuation that refuses a remainder starting with a
`p`-character consumes exactly the maximal nonempty run. -/
theorem runRE_plus_reject (p : Char → Bool) (k : List Char → Caps → Option Caps) (cap : Caps)
    (hk : ∀ c s2 cap2, p c = true → k (c :: s2) cap2 = none) :
    ∀ s, runRE (plusCls p) s cap k =
      (match s with
        | [] => none
        | c :: rest => if p c then k (rest.dropWhile p) cap else none) := by
  intro s
  cases s with
  | nil => simp [plusCls, runRE]
  | cons c rest =>
    by_cases hc : p c = true
    · simp only [plusCls, runRE, hc, if_pos]
      exact tryStar_reject p k cap hk rest
    · simp [Bool.not_eq_true] at hc
      simp [plusCls, runRE, hc]

theorem runRE_seq (a b : REc) (s : List Char) (cap : Caps)
    (k : List Char → Caps → Option Caps) :
    runRE (.seq a b) s cap k = runRE a s cap (fun s2 cap2 => runRE b s2 cap2 k) := by
  simp [runRE]

theorem runRE_group (i : Nat) (r : REc) (s : List Char) (cap : Caps)
    (k : List Char → Caps → Option Caps) :
    runRE (.group i r) s cap k =
      runRE r s cap (fun s2 cap2 => k s2 ((i, s.take (s.length - s2.length)) :: cap2)) := by
  simp [runRE]

theorem runRE_litc_nil (ch : Char) (cap : Caps) (k : List Char → Caps → Option Caps) :
    runRE (litc ch) [] cap k = none := by
  simp [litc, runRE]

theorem runRE_litc_cons (ch c : Char) (r : List Char) (cap : Caps)
    (k : List Char → Caps → Option Caps) :
    runRE (litc ch) (c :: r) cap k = if c = ch then k r cap else none := by
  by_cases h : c = ch <;> simp [litc, runRE, h]

theorem runRE_starCls (p : Char → Bool) (s : List Char) (cap : Caps)
    (k : List Char → Caps → Option Caps) :
    runRE (.starCls p) s cap k = tryStar p k cap s := by
  simp [runRE]

theorem isDigitC_dot : isDigitC '.' = false := by decide

theorem isDigitC_dash : isDigitC '-' = false := by decide

theorem take_len_sub (v t : List Char) :
    (v ++ t).take ((v ++ t).length - t.length) = v := by
  have h : (v ++ t).length - t.length = v.length := by
    simp [List.length_append]
  rw [h]
  exact List.take_left v t

/-- The sub-pattern `[0-9]+\.[0-9]+\.[0-9]+` with a continuation that
refuses a digit-leading remainder behaves as the deterministic scan
`verSplitAt`. -/
theorem runRE_linInner (K : List Char → Caps → Option Caps) (cap : Caps)
    (hK : ∀ c s2 cap2, isDigitC c = true → K (c :: s2) cap2 = none) (s : List Char) :
    runRE linInner s cap K =
      (match verSplitAt s with
        | some vs => K vs.2 cap
        | none => none) := by
  have hstep : ∀ (r2 : REc) c s2 cap2, isDigitC c = true →
      runRE (.seq (litc '.') r2) (c :: s2) cap2 K = none := by
    intro r2 c s2 cap2 hc
    rw [runRE_seq, runRE_litc_cons]
    have hne : ¬ c = '.' := by
      intro h
      rw [h, isDigitC_dot] at hc
      exact Bool.false_ne_true hc
    simp [hne]
  rw [show linInner =
      .seq (plusCls isDigitC)
        (.seq (litc '.')
          (.seq (plusCls isDigitC) (.seq (litc '.') (plusCls isDigitC)))) from rfl]
  rw [runRE_seq]
  rw [runRE_plus_reject isDigitC _ cap
    (fun c s2 cap2 hc => hstep (.seq (plusCls isDigitC) (.seq (litc '.') (plusCls isDigitC))) c s2 cap2 hc) s]
  cases s with
  | nil => simp [verSplitAt]
  | cons c rest =>
    by_cases hc : isDigitC c = true
    · simp only [hc, if_true]
      rw [show verSplitAt (c :: rest) =
          (match rest.dropWhile isDigitC with
            | [] => none
            | c1 :: s2 =>
              if c1 = '.' then
                if (s2.takeWhile isDigitC).isEmpty then none
                else
                  match s2.dropWhile isDigitC with
                  | [] => none
                  | c3 :: s4 =>
                    if c3 = '.' then
                      if (s4.takeWhile isDigitC).isEmpty then none
                      else
                        some
                          ((c :: rest).takeWhile isDigitC ++
                              '.' :: (s2.takeWhile isDigitC ++ '.' :: s4.takeWhile isDigitC),
                            s4.dropWhile isDigitC)
                    else none
              else none) from by
        simp [verSplitAt, List.takeWhile_cons, List.dropWhile_cons, hc]]
      cases h1 : rest.dropWhile isDigitC with
      | nil => rw [runRE_seq, runRE_litc_nil]
      | cons c1 s2 =>
        rw [runRE_seq, runRE_litc_cons]
        by_cases hdot1 : c1 = '.'
        · simp only [hdot1, if_true]
          rw [runRE_seq]
          rw [runRE_plus_reject isDigitC _ cap
            (fun c' s' cap' hc' => hstep (plusCls isDigitC) c' s' cap' hc') s2]
          cases s2 with
          | nil => simp [verSplitAt]
          | cons c2 rest2 =>
            by_cases hc2 : isDigitC c2 = true
            · simp only [hc2, if_true]
              simp only [List.takeWhile_cons, List.dropWhile_cons, hc2, if_true,
                List.isEmpty_cons, if_false, Bool.false_eq_true]
              cases h3 : rest2.dropWhile isDigitC with
              | nil => rw [runRE_seq, runRE_litc_nil]
              | cons c3 s4 =>
                rw [runRE_seq, runRE_litc_cons]
                by_cases hdot3 : c3 = '.'
                · simp only [hdot3, if_true]
                  rw [runRE_plus_reject isDigitC K cap hK s4]
                  cases s4 with
                  | nil => simp
                  | cons c4 rest4 =>
                    by_cases hc4 : isDigitC c4 = true
                    · simp [List.takeWhile_cons, List.dropWhile_cons, hc4]
                    · have hc4f : isDigitC c4 = false := by
                        revert hc4; cases isDigitC c4 <;> simp
                      simp [List.takeWhile_cons, List.dropWhile_cons, hc4f]
                · simp [hdot3]
            · have hc2f : isDigitC c2 = false := by
                revert hc2; cases isDigitC c2 <;> simp
              simp [List.takeWhile_cons, hc2f]
        · simp [hdot1]
    · have hcf : isDigitC c = false := by
        revert hc; cases isDigitC c <;> simp
      simp [verSplitAt, List.takeWhile_cons, hcf]

/-- A successful `verSplitAt` decomposes its input. -/
theorem verSplitAt_append (s v rem : List Char) (h : verSplitAt s = some (v, rem)) :
    s = v ++ rem := by
  unfold verSplitAt at h
  by_cases h0 : (s.takeWhile isDigitC).isEmpty
  · simp [h0] at h
  · simp only [h0, if_false, Bool.false_eq_true] at h
    cases h1 : s.dropWhile isDigitC with
    | nil => rw [h1] at h; simp at h
    | cons c1 s2 =>
      rw [h1] at h
      by_cases hdot1 : c1 = '.'
      · simp only [hdot1, if_true] at h
        by_cases h2 : (s2.takeWhile isDigitC).isEmpty
        · simp [h2] at h
        · simp only [h2, if_false, Bool.false_eq_true] at h
          cases h3 : s2.dropWhile isDigitC with
          | nil => rw [h3] at h; simp at h
          | cons c3 s4 =>
            rw [h3] at h
            by_cases hdot3 : c3 = '.'
            · simp only [hdot3, if_true] at h
              by_cases h4 : (s4.takeWhile isDigitC).isEmpty
              · simp [h4] at h
              · simp only [h4, if_false, Bool.false_eq_true, Option.some.injEq,
                  Prod.mk.injEq] at h
                obtain ⟨hv, hrem⟩ := h
                subst hv
                subst hrem
                subst hdot1
                subst hdot3
                calc s = s.takeWhile isDigitC ++ s.dropWhile isDigitC := by
                        rw [List.takeWhile_append_dropWhile]
                  _ = s.takeWhile isDigitC ++ ('.' :: s2) := by rw [h1]
                  _ = s.takeWhile isDigitC ++
                        ('.' :: (s2.takeWhile isDigitC ++ s2.dropWhile isDigitC)) := by
                        rw [List.takeWhile_append_dropWhile]
                  _ = s.takeWhile isDigitC ++
                        ('.' :: (s2.takeWhile isDigitC ++ ('.' :: s4))) := by rw [h3]
                  _ = s.takeWhile isDigitC ++
                        ('.' :: (s2.takeWhile isDigitC ++
                          ('.' :: (s4.takeWhile isDigitC ++ s4.dropWhile isDigitC)))) := by
                        rw [List.takeWhile_append_dropWhile]
                  _ = (s.takeWhile isDigitC ++
                        ('.' :: (s2.takeWhile isDigitC ++ ('.' :: s4.takeWhile isDigitC)))) ++
                        s4.dropWhile isDigitC := by simp
            · simp [hdot3] at h
      · simp [hdot1] at h

theorem tryStar_const_some (p : Char → Bool) (cap : Caps) (s : List Char) :
    tryStar p (fun _ cap2 => some cap2) cap s = some cap := by
  rw [tryStar_total p (fun _ cap2 => some cap2) cap (fun _ _ => rfl) s]

/-- The full `linux_version` regex at one position: it matches exactly
when the position starts with `"<int>.<int>.<int>-"`, capturing the
three-part numeric part as group 1. -/
theorem runRE_linuxVerRE (cap : Caps) (s : List Char) :
    runRE linuxVerRE s cap (fun _ cap2 => some cap2) =
      (match verPrefixAt s with
        | some v => some ((1, v) :: cap)
        | none => none) := by
  rw [show linuxVerRE = .seq (.group 1 linInner) (.seq (litc '-') (.starCls isDotC)) from rfl]
  rw [runRE_seq, runRE_group]
  have hKg : ∀ c s2 cap2, isDigitC c = true →
      runRE (.seq (litc '-') (.starCls isDotC)) (c :: s2)
        ((1, s.take (s.length - (c :: s2).length)) :: cap2) (fun _ cap2 => some cap2) = none := by
    intro c s2 cap2 hc
    rw [runRE_seq, runRE_litc_cons]
    have hne : ¬ c = '-' := by
      intro h
      rw [h, isDigitC_dash] at hc
      exact Bool.false_ne_true hc
    simp [hne]
  rw [runRE_linInner _ cap hKg s]
  unfold verPrefixAt
  cases hvs : verSplitAt s with
  | none => rfl
  | some vs =>
    dsimp only
    have hdec : s = vs.1 ++ vs.2 := verSplitAt_append s vs.1 vs.2 (by rw [hvs])
    cases hrem : vs.2 with
    | nil => rw [runRE_seq, runRE_litc_nil]
    | cons c5 r5 =>
      rw [runRE_seq, runRE_litc_cons]
      by_cases hdash : c5 = '-'
      · subst hdash
        simp only [reduceIte]
        rw [runRE_starCls, tryStar_const_some]
        rw [show s = vs.1 ++ ('-' :: r5) from by rw [hdec, hrem], take_len_sub]
      · simp [hdash]

/-- The leftmost regex search equals the left-to-right scanner. -/
theorem searchRE_linux (s : List Char) :
    searchRE linuxVerRE s =
      (match scanVer s with
        | some v => some [(1, v)]
        | none => none) := by
  induction s with
  | nil =>
    show runRE linuxVerRE [] [] (fun _ cap => some cap) = _
    rw [runRE_linuxVerRE []]
    rfl
  | cons c rest ih =>
    show (match runRE linuxVerRE (c :: rest) [] (fun _ cap => some cap) with
      | some cap => some cap
      | none => searchRE linuxVerRE rest) = _
    rw [runRE_linuxVerRE []]
    cases h : verPrefixAt (c :: rest) with
    | some v => simp [scanVer, h]
    | none => simp [scanVer, h, ih]

/-- The parsing tail of `linux_version` is the scanner, defaulting to `""`. -/
theorem linux_version_parse_eq_scanVer (out : List Char) :
    linux_version_parse out = (scanVer out).getD [] := by
  unfold linux_version_parse
  rw [searchRE_linux]
  cases h : scanVer out with
  | none => rfl
  | some v => simp [getCap, numGroups, linuxVerRE, linInner, plusCls]

/-- Behaviour of `takeWhile`/`dropWhile` on an all-satisfying block followed by a
non-satisfying character. -/
theorem takeWhile_all_append (p : Char → Bool) (a : List Char) (y : Char) (r : List Char)
    (ha : ∀ x ∈ a, p x = true) (hy : p y = false) :
    (a ++ y :: r).takeWhile p = a ∧ (a ++ y :: r).dropWhile p = y :: r := by
  induction a with
  | nil => simp [List.takeWhile_cons, List.dropWhile_cons, hy]
  | cons x xs ih =>
    have hx : p x = true := ha x (List.mem_cons_self x xs)
    have ihh := ih (fun z hz => ha z (List.mem_cons_of_mem x hz))
    simp only [List.cons_append, List.takeWhile_cons, List.dropWhile_cons, hx, if_true]
    exact ⟨by rw [ihh.1], by rw [ihh.2]⟩

theorem verPrefixAt_nil : verPrefixAt [] = none := rfl

/-- A position that is literally of the shape
`<digits>.<digits>.<digits>-...` is accepted by `verPrefixAt`. -/
theorem verPrefixAt_of_decomp (a b c post : List Char)
    (ha0 : a ≠ []) (hb0 : b ≠ []) (hc0 : c ≠ [])
    (ha : ∀ x ∈ a, isDigitC x = true) (hb : ∀ x ∈ b, isDigitC x = true)
    (hc : ∀ x ∈ c, isDigitC x = true) :
    verPrefixAt (a ++ '.' :: (b ++ '.' :: (c ++ '-' :: post))) =
      some (a ++ '.' :: (b ++ '.' :: c)) := by
  have h1 := takeWhile_all_append isDigitC a '.' (b ++ '.' :: (c ++ '-' :: post)) ha isDigitC_dot
  have h2 := takeWhile_all_append isDigitC b '.' (c ++ '-' :: post) hb isDigitC_dot
  have h3 := takeWhile_all_append isDigitC c '-' post hc isDigitC_dash
  have ea : a.isEmpty = false := by cases a with | nil => exact absurd rfl ha0 | cons _ _ => rfl
  have eb : b.isEmpty = false := by cases b with | nil => exact absurd rfl hb0 | cons _ _ => rfl
  have ec : c.isEmpty = false := by cases c with | nil => exact absurd rfl hc0 | cons _ _ => rfl
  simp [verPrefixAt, verSplitAt, h1.1, h1.2, h2.1, h2.2, h3.1, h3.2, ea, eb, ec]

/-- A successful `verSplitAt` yields three nonempty digit runs. -/
theorem verSplitAt_decomp (s v rem : List Char) (h : verSplitAt s = some (v, rem)) :
    ∃ a b c, v = a ++ '.' :: (b ++ '.' :: c) ∧
      a ≠ [] ∧ b ≠ [] ∧ c ≠ [] ∧
      (∀ x ∈ a, isDigitC x = true) ∧ (∀ x ∈ b, isDigitC x = true) ∧
      (∀ x ∈ c, isDigitC x = true) := by
  unfold verSplitAt at h
  by_cases h0 : (s.takeWhile isDigitC).isEmpty
  · simp [h0] at h
  · simp only [h0, if_false, Bool.false_eq_true] at h
    cases h1 : s.dropWhile isDigitC with
    | nil => rw [h1] at h; simp at h
    | cons c1 s2 =>
      rw [h1] at h
      by_cases hdot1 : c1 = '.'
      · simp only [hdot1, if_true] at h
        by_cases hg2 : (s2.takeWhile isDigitC).isEmpty
        · simp [hg2] at h
        · simp only [hg2, if_false, Bool.false_eq_true] at h
          cases h3 : s2.dropWhile isDigitC with
          | nil => rw [h3] at h; simp at h
          | cons c3 s4 =>
            rw [h3] at h
            by_cases hdot3 : c3 = '.'
            · simp only [hdot3, if_true] at h
              by_cases hg4 : (s4.takeWhile isDigitC).isEmpty
              · simp [hg4] at h
              · simp only [hg4, if_false, Bool.false_eq_true, Option.some.injEq,
                  Prod.mk.injEq] at h
                refine ⟨s.takeWhile isDigitC, s2.takeWhile isDigitC, s4.takeWhile isDigitC,
                  h.1.symm, ?_, ?_, ?_, ?_, ?_, ?_⟩
                · intro he; rw [he] at h0; exact h0 rfl
                · intro he; rw [he] at hg2; exact hg2 rfl
                · intro he; rw [he] at hg4; exact hg4 rfl
                · exact fun x hx => List.mem_takeWhile_imp hx
                · exact fun x hx => List.mem_takeWhile_imp hx
                · exact fun x hx => List.mem_takeWhile_imp hx
            · simp [hdot3] at h
      · simp [hdot1] at h

/-- A successful `verPrefixAt` exhibits the occurrence at the head of the
string. -/
theorem verPrefixAt_decomp (s v : List Char) (h : verPrefixAt s = some v) :
    ∃ a b c post, s = a ++ '.' :: (b ++ '.' :: (c ++ '-' :: post)) ∧
      a ≠ [] ∧ b ≠ [] ∧ c ≠ [] ∧
      (∀ x ∈ a, isDigitC x = true) ∧ (∀ x ∈ b, isDigitC x = true) ∧
      (∀ x ∈ c, isDigitC x = true) ∧ v = a ++ '.' :: (b ++ '.' :: c) := by
  unfold verPrefixAt at h
  cases hvs : verSplitAt s with
  | none => rw [hvs] at h; cases h
  | some vs =>
    rw [hvs] at h
    dsimp only at h
    cases hrem : vs.2 with
    | nil => rw [hrem] at h; cases h
    | cons c0 post =>
      rw [hrem] at h
      by_cases hdash : c0 = '-'
      · simp only [hdash, if_true, reduceIte, Option.some.injEq] at h
        obtain ⟨a, b, c, hv, ha0, hb0, hc0, ha, hb, hc⟩ :=
          verSplitAt_decomp s vs.1 vs.2 (by rw [hvs])
        have hs : s = vs.1 ++ vs.2 := verSplitAt_append s vs.1 vs.2 (by rw [hvs])
        refine ⟨a, b, c, post, ?_, ha0, hb0, hc0, ha, hb, hc, by rw [← h, hv]⟩
        rw [hs, hrem, hdash, hv]
        simp
      · simp [hdash] at h

/-- If some suffix position is accepted, the scanner succeeds. -/
theorem scanVer_isSome_append (pre t : List Char) (v : List Char)
    (h : verPrefixAt t = some v) : (scanVer (pre ++ t)).isSome = true := by
  induction pre with
  | nil =>
    cases t with
    | nil => rw [verPrefixAt_nil] at h; cases h
    | cons c r => simp [scanVer, h]
  | cons x xs ih =>
    show (scanVer (x :: (xs ++ t))).isSome = true
    cases hx : verPrefixAt (x :: (xs ++ t)) with
    | some w => simp [scanVer, hx]
    | none => simp [scanVer, hx, ih]

/-- A successful scan exhibits an occurrence. -/
theorem containsVer_of_scanVer (s v : List Char) (h : scanVer s = some v) :
    ContainsVer s := by
  induction s with
  | nil => cases h
  | cons c rest ih =>
    unfold scanVer at h
    cases hp : verPrefixAt (c :: rest) with
    | some w =>
      obtain ⟨a, b, cc, post, hs, ha0, hb0, hc0, ha, hb, hc, _⟩ :=
        verPrefixAt_decomp (c :: rest) w hp
      exact ⟨[], a, b, cc, post, by simpa using hs, ha0, hb0, hc0, ha, hb, hc⟩
    | none =>
      rw [hp] at h
      obtain ⟨pre, a, b, cc, post, hs, ha0, hb0, hc0, ha, hb, hc⟩ := ih h
      exact ⟨c :: pre, a, b, cc, post, by rw [List.cons_append, ← hs], ha0, hb0, hc0,
        ha, hb, hc⟩

/-- The scanner succeeds exactly on strings containing a substring of the
form `"<int>.<int>.<int>-"`. -/
theorem scanVer_isSome_iff (s : List Char) :
    (scanVer s).isSome = true ↔ ContainsVer s := by
  constructor
  · intro h
    cases hsv : scanVer s with
    | none => rw [hsv] at h; cases h
    | some v => exact containsVer_of_scanVer s v hsv
  · rintro ⟨pre, a, b, c, post, hs, ha0, hb0, hc0, ha, hb, hc⟩
    rw [hs]
    exact scanVer_isSome_append pre _ _ (verPrefixAt_of_decomp a b c post ha0 hb0 hc0 ha hb hc)

/-! ## Claims -/

set_option maxRecDepth 4000 in
/-- C1: the claim says the retry loop of `get_self_exe_path` doubles the
buffer until the returned size is strictly below the capacity, so the
returned path is never a truncated prefix of the true executable path.
The source instead calls `buffer.reserve(new_size)`, which never changes
`buffer.size()`, and its loop condition compares the doubled `new_size`
with the returned size, so for a 300-character executable path the loop
exits after a single ineffective iteration and the function returns the
truncated 259-character prefix.  The spec-modelled loop
(`get_self_exe_path_spec`) returns the full path on the same input. -/
theorem C1_get_self_exe_path_truncates :
    (∀ fuel, 1 ≤ fuel →
      get_self_exe_path (List.replicate 300 'a') fuel = some (List.replicate 259 'a')) ∧
    get_self_exe_path_spec (List.replicate 300 'a') 2 = some (List.replicate 300 'a') ∧
    (List.replicate 259 'a' : List Char) ≠ List.replicate 300 'a' := by
  refine ⟨?_, by decide, by decide⟩
  intro fuel hfuel
  cases fuel with
  | zero => cases hfuel
  | succ f =>
    show get_self_exe_path (List.replicate 300 'a') (f + 1) = some (List.replicate 259 'a')
    unfold get_self_exe_path gsepLoop
    norm_num [gmfwRet, gmfwContents, MAX_PATH, List.take_replicate]

/-- C1 witness: the theorem applied at one unit of fuel. -/
theorem C1_witness :
    get_self_exe_path (List.replicate 300 'a') 1 = some (List.replicate 259 'a') :=
  C1_get_self_exe_path_truncates.1 1 (le_refl 1)

/-- C2: `windows_version` parsing — the canonical banner yields
`"10.0.19041"`; every stripped output accepted by the three-group
pattern yields components 0, 1 and 2 of the dot-split third group joined
with dots; every output rejected by the pattern yields the sentinel
`"0.0.0"` (not the empty string). -/
theorem C2_windows_version_parse :
    windows_version_parse (strip "Microsoft Windows [Version 10.0.19041]".data) =
        some "10.0.19041".data ∧
    (∀ x caps a b c, matchFull winVerRE x = some caps →
      (splitOnChar '.' ((getCap 3 caps).getD [])).get? 0 = some a →
      (splitOnChar '.' ((getCap 3 caps).getD [])).get? 1 = some b →
      (splitOnChar '.' ((getCap 3 caps).getD [])).get? 2 = some c →
      windows_version_parse x = some (a ++ '.' :: (b ++ '.' :: c))) ∧
    (∀ x, matchFull winVerRE x = none → windows_version_parse x = some "0.0.0".data) := by
  refine ⟨by decide, ?_, ?_⟩
  · intro x caps a b c h h0 h1 h2
    unfold windows_version_parse
    rw [h]
    dsimp only
    rw [h0, h1, h2]
  · intro x h
    unfold windows_version_parse
    rw [h]

/-- C2 witness: the accepted-output clause applied to the canonical
banner and its concrete captures, and the rejected-output clause applied
to an arbitrary non-matching text. -/
theorem C2_witness :
    windows_version_parse "Microsoft Windows [Version 10.0.19041]".data =
        some "10.0.19041".data ∧
    windows_version_parse "not a banner".data = some "0.0.0".data :=
  ⟨C2_windows_version_parse.2.1 "Microsoft Windows [Version 10.0.19041]".data
      [(3, "10.0.19041".data), (2, "Windows".data), (1, "Microsoft".data)]
      "10".data "0".data "19041".data (by decide) (by decide) (by decide) (by decide),
    C2_windows_version_parse.2.2 "not a banner".data (by decide)⟩

/-- C3: whenever the parsed host version fails the precondition (fewer
than three dot-separated components, or first component below 10, or
third component below 14352), `enable_long_paths_support` returns
`false` with a warning and performs no registry access at all, for
either value of `force` and any registry/confirmation world. -/
theorem C3_precondition_no_registry (ver : String) (force : Bool) (w : ElpWorld)
    (h : (splitOnChar '.' ver.data).length < 3 ∨
      (∃ a, stoull ((splitOnChar '.' ver.data).getD 0 []) = some a ∧ a < 10) ∨
      (∃ a c, stoull ((splitOnChar '.' ver.data).getD 0 []) = some a ∧ 10 ≤ a ∧
        stoull ((splitOnChar '.' ver.data).getD 2 []) = some c ∧ c < 14352)) :
    (enable_long_paths_support force ver w).result = .ok false ∧
    (enable_long_paths_support force ver w).regOps = [] ∧
    (enable_long_paths_support force ver w).logs =
      ["Not setting long path registry key; Windows version must be at least 10 with the fall 2016 \"Anniversary update\" or newer."] := by
  rcases h with h3 | ⟨a, ha, halt⟩ | ⟨a, c, ha, hage, hc, hclt⟩
  · simp [enable_long_paths_support, h3]
  · by_cases h3 : (splitOnChar '.' ver.data).length < 3
    · simp [enable_long_paths_support, h3]
    · simp only [List.getD_eq_getElem?_getD] at ha
      simp [enable_long_paths_support, h3, ha, halt]
  · by_cases h3 : (splitOnChar '.' ver.data).length < 3
    · simp [enable_long_paths_support, h3]
    · have hnlt : ¬ a < 10 := Nat.not_lt.mpr hage
      simp only [List.getD_eq_getElem?_getD] at ha hc
      simp [enable_long_paths_support, h3, ha, hnlt, hc, hclt]

/-- C3 witness: host version `"10.0.14351"` (third component one short)
fails the precondition for both `force` values. -/
theorem C3_witness :
    (enable_long_paths_support true "10.0.14351" ⟨some 0, true, true, true, true⟩).regOps
        = [] ∧
    (enable_long_paths_support false "10.0.14351" ⟨some 0, true, true, true, true⟩).result
        = .ok false :=
  ⟨(C3_precondition_no_registry "10.0.14351" true ⟨some 0, true, true, true, true⟩
      (Or.inr (Or.inr ⟨10, 14351, by decide, by decide, by decide, by decide⟩))).2.1,
    (C3_precondition_no_registry "10.0.14351" false ⟨some 0, true, true, true, true⟩
      (Or.inr (Or.inr ⟨10, 14351, by decide, by decide, by decide, by decide⟩))).1⟩

/-- C4: `run_as_admin` returns `true` exactly when the elevated launch
succeeded and the child exited with code 0; launch failure and non-zero
exit each log a warning; on a successful launch the function performs
the `INFINITE` wait (blocks until the child exits) before returning.
Every modelled call is non-throwing, so no exception is raised. -/
theorem C4_run_as_admin (launchOk : Bool) (childExit : Nat) :
    ((run_as_admin launchOk childExit).1 = true ↔ launchOk = true ∧ childExit = 0) ∧
    (launchOk = false →
      "Could not start process as admin." ∈ (run_as_admin launchOk childExit).2.1) ∧
    (launchOk = true → childExit ≠ 0 →
      "Process exited with code != 0." ∈ (run_as_admin launchOk childExit).2.1) ∧
    (launchOk = true →
      WinOp.waitForSingleObjectInfinite ∈ (run_as_admin launchOk childExit).2.2) := by
  cases launchOk with
  | false => simp [run_as_admin]
  | true =>
    by_cases hz : childExit = 0
    · subst hz; simp [run_as_admin]
    · simp [run_as_admin, hz]

/-- C4 witness: concrete launches. -/
theorem C4_witness :
    (run_as_admin true 0).1 = true ∧
    "Could not start process as admin." ∈ (run_as_admin false 7).2.1 ∧
    "Process exited with code != 0." ∈ (run_as_admin true 7).2.1 ∧
    WinOp.waitForSingleObjectInfinite ∈ (run_as_admin true 7).2.2 :=
  ⟨(C4_run_as_admin true 0).1.mpr ⟨rfl, rfl⟩,
    (C4_run_as_admin false 7).2.1 rfl,
    (C4_run_as_admin true 7).2.2.1 rfl (by decide),
    (C4_run_as_admin true 7).2.2.2 rfl⟩

/-- C5: for each of the three version functions, a non-empty override
environment variable value `S` is returned verbatim, for any OS-family
flags, and no subprocess is invoked. -/
theorem C5_override (ctx : OsCtx) (S : String) (hS : S ≠ "")
    (wout mout lout : Option String) :
    (ctx.envGet "CONDA_OVERRIDE_WIN" = S → windows_version ctx wout = (some S, false)) ∧
    (ctx.envGet "CONDA_OVERRIDE_OSX" = S → macos_version ctx mout = (S, false)) ∧
    (ctx.envGet "CONDA_OVERRIDE_LINUX" = S → linux_version ctx lout = (S, false)) := by
  refine ⟨fun h => ?_, fun h => ?_, fun h => ?_⟩
  · unfold windows_version
    rw [h]
    simp [hS]
  · unfold macos_version
    rw [h]
    simp [hS]
  · unfold linux_version
    rw [h]
    simp [hS]

/-- C5 witness: an environment where all three overrides are `"9.9.9"`,
on a host whose flags say it is none of the three OS families, with
failing subprocesses — each function still returns `"9.9.9"` without a
subprocess. -/
theorem C5_witness :
    windows_version ⟨fun _ => "9.9.9", false, false, false⟩ none = (some "9.9.9", false) ∧
    macos_version ⟨fun _ => "9.9.9", false, false, false⟩ none = ("9.9.9", false) ∧
    linux_version ⟨fun _ => "9.9.9", false, false, false⟩ none = ("9.9.9", false) :=
  ⟨(C5_override ⟨fun _ => "9.9.9", false, false, false⟩ "9.9.9" (by decide) none none none).1 rfl,
    (C5_override ⟨fun _ => "9.9.9", false, false, false⟩ "9.9.9" (by decide) none none none).2.1 rfl,
    (C5_override ⟨fun _ => "9.9.9", false, false, false⟩ "9.9.9" (by decide) none none none).2.2 rfl⟩

/-- C6: `linux_version`'s parse equals the left-to-right scanner
(`scanVer`) that returns the three-part numeric part of the first
position starting a `"<int>.<int>.<int>-"` substring, defaulting to the
empty string; the scanner succeeds exactly on outputs containing such a
substring (`ContainsVer`); an output containing `"5.15.0-76-generic"`
yields `"5.15.0"`; an output with no such substring yields `""`, not the
`"0.0.0"` sentinel. -/
theorem C6_linux_version_first_occurrence :
    (∀ out, linux_version_parse out = (scanVer out).getD []) ∧
    (∀ out, ContainsVer out ↔ (scanVer out).isSome = true) ∧
    linux_version_parse ("5.15.0-76-generic".data ++ ['\n']) = "5.15.0".data ∧
    (∀ out, ¬ ContainsVer out → linux_version_parse out = []) := by
  refine ⟨linux_version_parse_eq_scanVer, fun out => (scanVer_isSome_iff out).symm,
    by decide, ?_⟩
  intro out h
  rw [linux_version_parse_eq_scanVer]
  cases hsv : scanVer out with
  | none => rfl
  | some v =>
    exact absurd ((scanVer_isSome_iff out).mp (by rw [hsv]; rfl))
      h

/-- C6 witness: a version-free output has no occurrence and parses to
the empty string. -/
theorem C6_witness :
    ¬ ContainsVer "no kernel here".data ∧
    linux_version_parse "no kernel here".data = [] :=
  have h : ¬ ContainsVer "no kernel here".data := fun hc =>
    absurd ((C6_linux_version_first_occurrence.2.1 "no kernel here".data).mp hc)
      (by decide)
  ⟨h, C6_linux_version_first_occurrence.2.2.2 "no kernel here".data h⟩

/-- C7: the claim says the fatal error raised on conversion failure
carries the OS-reported error text.  The source logs the OS text at
error level but throws `std::runtime_error("Failed to convert string to
UTF-8")` with a fixed message: for OS error text `"oserr-xyz"`, the
raised message does not contain it. -/
theorem C7_counterexample :
    (to_utf8 [65] ⟨-1, "oserr-xyz", ""⟩).1 =
        .error "Failed to convert string to UTF-8" ∧
    strContains "oserr-xyz".data "Failed to convert string to UTF-8".data = false :=
  ⟨rfl, by decide⟩

/-- C7 (amended): `to_utf8` on zero-length input returns the empty
string without any OS conversion call; on non-empty input whose sizing
call fails it raises a fatal error with the fixed message
`"Failed to convert string to UTF-8"`, after logging the OS-reported
error text at error level, and returns no sentinel. -/
theorem C7_to_utf8 :
    (∀ stub, to_utf8 [] stub = (.ok "", [], [])) ∧
    (∀ w stub, w ≠ [] → stub.sizeResult ≤ 0 →
      to_utf8 w stub =
        (.error "Failed to convert string to UTF-8",
          ["Failed to convert string to UTF-8 " ++ stub.errorText], [.sizeQuery])) := by
  constructor
  · intro stub
    rfl
  · intro w stub hw hs
    have hlen : ¬ w.length = 0 := fun h => hw (List.length_eq_zero.mp h)
    simp [to_utf8, hlen, hs]

/-- C7 witness: the failure clause at a one-character input. -/
theorem C7_witness :
    to_utf8 [65] ⟨0, "boom", ""⟩ =
      (.error "Failed to convert string to UTF-8",
        ["Failed to convert string to UTF-8 boom"], [.sizeQuery]) :=
  C7_to_utf8.2 [65] ⟨0, "boom", ""⟩ (by decide) (by decide)

/-- C8: if `init_console` never ran (the initialized flag is still
false, as in the process-start state), `reset_console` is the identity;
after `init_console` ran, `reset_console` restores the codepages that
`init_console` captured before forcing UTF-8, whatever happened to the
console in between. -/
theorem C8_reset_console (s : ConsoleState) (cpmid : ConsoleCP) (bmid : Bool) :
    (s.globals.initialized = false → reset_console s = s) ∧
    (reset_console
        { globals := (init_console s).globals, cp := cpmid, stdoutFullyBuffered := bmid }).cp
      = s.cp ∧
    reset_console (consoleStartState cpmid bmid) = consoleStartState cpmid bmid := by
  refine ⟨fun h => ?_, ?_, ?_⟩
  · simp [reset_console, h]
  · simp [reset_console, init_console]
  · simp [reset_console, consoleStartState]

/-- C8 witness: concrete codepages 437/850 are restored. -/
theorem C8_witness :
    reset_console (consoleStartState ⟨437, 850⟩ false) = consoleStartState ⟨437, 850⟩ false ∧
    (reset_console
        { globals := (init_console (consoleStartState ⟨437, 850⟩ false)).globals,
          cp := ⟨65001, 65001⟩, stdoutFullyBuffered := true }).cp = ⟨437, 850⟩ :=
  ⟨(C8_reset_console (consoleStartState ⟨437, 850⟩ false) ⟨437, 850⟩ false).1 rfl,
    (C8_reset_console (consoleStartState ⟨437, 850⟩ false) ⟨65001, 65001⟩ true).2.1⟩

/-- C9: the claim says every `ver` output accepted by the pattern has a
third captured group with at least three dot-separated components.
The banner `"Microsoft Windows [Version 10.0]"` is accepted with group 3
`"10.0"` — only two components — and the parse hits the out-of-bounds
vector access (modelled as `none`). -/
theorem C9_counterexample :
    matchFull winVerRE "Microsoft Windows [Version 10.0]".data =
        some [(3, "10.0".data), (2, "Windows".data), (1, "Microsoft".data)] ∧
    (splitOnChar '.' "10.0".data).length = 2 ∧
    windows_version_parse "Microsoft Windows [Version 10.0]".data = none := by
  decide

/-- C9 (amended): for an accepted output, the component accesses are in
bounds — the parse completes without undefined behaviour — exactly when
the third captured group splits into at least three dot-separated
components; the pattern also accepts outputs with fewer. -/
theorem C9_in_bounds_iff (x : List Char) (caps : Caps)
    (h : matchFull winVerRE x = some caps) :
    (windows_version_parse x).isSome = true ↔
      3 ≤ (splitOnChar '.' ((getCap 3 caps).getD [])).length := by
  unfold windows_version_parse
  rw [h]
  dsimp only
  cases hels : splitOnChar '.' ((getCap 3 caps).getD []) with
  | nil => simp
  | cons a t1 =>
    cases t1 with
    | nil => simp
    | cons b t2 =>
      cases t2 with
      | nil => simp
      | cons c t3 => simp [Nat.succ_le_succ, Nat.le_add_left]

/-- C9 witness: the amended equivalence at the canonical banner, whose
third group has exactly three components. -/
theorem C9_witness :
    (windows_version_parse "Microsoft Windows [Version 10.0.19041]".data).isSome = true :=
  (C9_in_bounds_iff "Microsoft Windows [Version 10.0.19041]".data
      [(3, "10.0.19041".data), (2, "Windows".data), (1, "Microsoft".data)]
      (by decide)).mpr (by decide)

/-- C10: the claim says a first or third component that is not a valid
unsigned integer makes the `std::stoull` precondition parse throw.  But
`std::stoull` converts a maximal leading digit run: for host version
`"10x.0.14352"` the first component `"10x"` is not a valid unsigned
integer, yet `stoull` yields `10` and the function proceeds normally
(here: registry value already `1`, so it returns `true`). -/
theorem C10_counterexample :
    isValidUInt "10x".data = false ∧
    (splitOnChar '.' "10x.0.14352".data).length = 3 ∧
    (enable_long_paths_support false "10x.0.14352"
        ⟨some 1, false, false, true, true⟩).result = .ok true :=
  ⟨by decide, by decide, rfl⟩

/-- C10 (amended): with at least three components, the function raises
(propagates the `std::stoull` exception, before any registry access)
exactly in the cases where `stoull` itself fails: the first component
has no leading digit run (or overflows), or the first parses to at least
10 and the third has no leading digit run (or overflows).  A component
such as `"10x"` parses as `10` and does not throw. -/
theorem C10_stoull_throw (ver : String) (force : Bool) (w : ElpWorld)
    (h3 : 3 ≤ (splitOnChar '.' ver.data).length) :
    (stoull ((splitOnChar '.' ver.data).getD 0 []) = none →
      (enable_long_paths_support force ver w).result =
          .error "std::invalid_argument or std::out_of_range" ∧
        (enable_long_paths_support force ver w).regOps = []) ∧
    (∀ a, stoull ((splitOnChar '.' ver.data).getD 0 []) = some a → 10 ≤ a →
      stoull ((splitOnChar '.' ver.data).getD 2 []) = none →
      (enable_long_paths_support force ver w).result =
          .error "std::invalid_argument or std::out_of_range" ∧
        (enable_long_paths_support force ver w).regOps = []) := by
  have hnlt : ¬ (splitOnChar '.' ver.data).length < 3 := Nat.not_lt.mpr h3
  constructor
  · intro h0
    simp only [List.getD_eq_getElem?_getD] at h0
    simp [enable_long_paths_support, hnlt, h0]
  · intro a ha hage h2
    have hnl10 : ¬ a < 10 := Nat.not_lt.mpr hage
    simp only [List.getD_eq_getElem?_getD] at ha h2
    simp [enable_long_paths_support, hnlt, ha, hnl10, h2]

/-- C10 witness: `"x.0.14352"` has an unconvertible first component and
makes the function raise without touching the registry. -/
theorem C10_witness :
    (enable_long_paths_support true "x.0.14352" ⟨some 0, true, true, true, true⟩).result =
        .error "std::invalid_argument or std::out_of_range" ∧
      (enable_long_paths_support true "x.0.14352" ⟨some 0, true, true, true, true⟩).regOps = [] :=
  (C10_stoull_throw "x.0.14352" true ⟨some 0, true, true, true, true⟩ (by decide)).1 (by decide)

end UtilOs

